import Mathlib

/-!
Shallow embedding of the wajpay repository's multi-session connection
manager (two entry variants in the source: app.js and server.js, both in
src/unnamed/part_000).  JavaScript strings are modelled as `List Char`,
machine integers as `Nat`, and thrown exceptions as `Except`.  Each
definition is annotated with the source lines it embeds.
-/

namespace Wajpay

/-! ## String helpers: the JS `trim` / `endsWith` / digit-filter used by `formatJid` -/

/-- Whitespace predicate modelling the characters removed by
JavaScript `String.prototype.trim` (ASCII whitespace). -/
def wsChar (c : Char) : Bool := c.isWhitespace

/-- Drop trailing whitespace, the right half of JS `trim`. -/
def dropTrailingWS (l : List Char) : List Char := ((l.reverse).dropWhile wsChar).reverse

/-- Model of JavaScript `String.prototype.trim`. -/
def jsTrim (l : List Char) : List Char := dropTrailingWS (l.dropWhile wsChar)

/-- The canonical personal-chat suffix used in part_000 lines 160-162. -/
def waSuffix : List Char := "@s.whatsapp.net".toList

/-- The group-chat suffix accepted at part_000 line 160. -/
def groupSuffix : List Char := "@g.us".toList

/-- Model of JavaScript `String.prototype.endsWith`. -/
def jsEndsWith (l suf : List Char) : Bool := suf.isSuffixOf l

/--
`formatJid` (part_000 lines 157-163 and the identical server.js copy at
lines 749-755):

    function formatJid(numberOrJid) \x7b
      if (!numberOrJid) throw new Error('missing number/jid');
      let s = String(numberOrJid).trim();
      if (s.endsWith('@s.whatsapp.net') || s.endsWith('@g.us')) return s;
      s = s.replace(/[^0-9]/g,'');
      return `$\x7bs\x7d@s.whatsapp.net`;
    \x7d

An empty list models the only falsy string. -/
def formatJid (input : List Char) : Except (List Char) (List Char) :=
  if input = [] then Except.error ("missing number/jid".toList)
  else
    let s := jsTrim input
    if jsEndsWith s waSuffix || jsEndsWith s groupSuffix then Except.ok s
    else Except.ok ((s.filter Char.isDigit) ++ waSuffix)

/-- Total wrapper returning the jid `formatJid` produces on non-throwing inputs. -/
def jidFn (r : List Char) : List Char :=
  match formatJid r with
  | Except.ok j => j
  | Except.error _ => []

/-! ## Per-session Supervisor state

The model fixes one `sessionId` and tracks everything the source mutates
for it: the in-memory registry entry `SESSIONS[sessionId]` (part_000 line
152 / 739), the persisted `sessions` row, the persisted `messages` rows it
inserts, the pending reconnect timers, and a counter supplying fresh
socket handles. -/

/-- The `status` enum of the `sessions` table (part_000 line 58 / 645). -/
inductive SessStatus
  | loading
  | qr_received
  | connected
  | disconnected
  | logged_out
deriving DecidableEq

/-- An outbound `messages` row as inserted by the send handlers
(`to_who` and `text`; a `none` text models an SQL NULL / JS undefined). -/
structure SentRec where
  target : List Char
  text : Option (List Char)
deriving DecidableEq

/-- State the source keeps for a single session. `registry = none` models
the absence of `SESSIONS[sessionId]`; `record` is the `sessions` row
(`none` = no row); `timers` lists the delays of pending reconnect
`setTimeout` tasks. -/
structure SupState where
  registry : Option Nat
  record : Option SessStatus
  msgs : List SentRec
  timers : List Nat
  nextSock : Nat
deriving DecidableEq

/-- `sessionStore.updateStatus` (part_000 lines 96-101): an SQL UPDATE,
which changes the row only when it exists and never deletes it. -/
def updateStatus (s : SupState) (st : SessStatus) : SupState :=
  { s with record := s.record.map (fun _ => st) }

/-- `DisconnectReason.loggedOut` from the protocol library. -/
def loggedOutCode : Nat := 401

/-- The fixed reconnect backoff used at part_000 line 241 / 812. -/
def reconnectDelayMs : Nat := 3000

/-- Events the close handler broadcasts. -/
inductive CEvent
  | statusEvent (st : SessStatus)
  | logEvent (m : List Char)
deriving DecidableEq

/-- The `connection === 'close'` branch of the `connection.update`
listener (part_000 lines 229-243; identical in server.js at 799-814):
on `loggedOut` the row is marked `logged_out` and the registry entry is
deleted; on any other code the row is marked `disconnected` and one
reconnect `setTimeout` of 3000 ms is scheduled.  The registry entry is
NOT deleted in the second branch. -/
def closeHandler (code : Nat) (s : SupState) : SupState × List CEvent :=
  if code = loggedOutCode then
    ({ updateStatus s SessStatus.logged_out with registry := none },
      [CEvent.statusEvent SessStatus.logged_out, CEvent.logEvent ("logged_out".toList)])
  else
    ({ updateStatus s SessStatus.disconnected with timers := s.timers ++ [reconnectDelayMs] },
      [CEvent.statusEvent SessStatus.disconnected,
        CEvent.logEvent ("disconnected - will attempt reconnect in 3s".toList)])

/-- Atomic (uninterleaved) model of `startBaileysSession` (part_000 lines
171-188 / 758-768): if `SESSIONS[sessionId] && SESSIONS[sessionId].sock`
the existing handle is returned with no other effect; otherwise the
session row is upserted to `loading`, a fresh socket is created and
registered. -/
def startBaileys (s : SupState) : SupState × Nat :=
  match s.registry with
  | some sock => (s, sock)
  | none =>
    let sock := s.nextSock
    ({ s with record := some SessStatus.loading, registry := some sock, nextSock := sock + 1 },
      sock)

/-- Directed replies to the commanding socket client. -/
inductive Reply
  | errorReply (m : List Char)
  | successReply (m : List Char)
deriving DecidableEq

/-- Supervisor-side operations a command handler may perform: a protocol
`sendMessage` call and a `messageStore.insert` write. -/
inductive GOp
  | protoSend (jid : List Char) (text : Option (List Char))
  | dbInsert (jid : List Char) (text : Option (List Char))
deriving DecidableEq

/-- The `'session not active'` error text (part_000 line 332 etc.). -/
def sNotActive : List Char := "session not active".toList

/--
The socket `send-message` handler (part_000 lines 329-341; server.js copy
at 874-888).  Control flow of the source: registry check first, then
`formatJid(to)` (which throws on a missing `to`), then the protocol send
(outcome modelled by the oracle `protoOk`), then the message insert; all
throws are caught and surfaced as an error reply.  Note there is no field
validation: a missing `message` still reaches `sock.sendMessage`. -/
def sendMessageHandler (s : SupState) (toNum msg : Option (List Char)) (protoOk : Bool) :
    SupState × Reply × List GOp :=
  match s.registry with
  | none => (s, Reply.errorReply sNotActive, [])
  | some _ =>
    match toNum with
    | none => (s, Reply.errorReply ("missing number/jid".toList), [])
    | some t =>
      match formatJid t with
      | Except.error e => (s, Reply.errorReply e, [])
      | Except.ok jid =>
        if protoOk then
          ({ s with msgs := s.msgs ++ [⟨jid, msg⟩] },
            Reply.successReply ("Message sent".toList),
            [GOp.protoSend jid msg, GOp.dbInsert jid msg])
        else
          (s, Reply.errorReply ("send error".toList), [GOp.protoSend jid msg])

/-- Side operations of the logout handlers. -/
inductive LogoutOp
  | protoLogout
  | clearCreds
deriving DecidableEq

/-- The `logout-session` handler of app.js (part_000 lines 513-528): a
best-effort `sock.logout()` whose failure is swallowed (`protoFails` is
deliberately unused, embedding the empty catch), deletion of the registry
entry, an unconditional `updateStatus(..., 'logged_out')`, and an
unconditional `clearSession` attempt whose failure is also swallowed
(`clearFails` unused).  There is no purge parameter in the source. -/
def logoutApp (s : SupState) (_protoFails _clearFails : Bool) : SupState × List LogoutOp :=
  match s.registry with
  | some _ =>
    (updateStatus { s with registry := none } SessStatus.logged_out,
      [LogoutOp.protoLogout, LogoutOp.clearCreds])
  | none =>
    (updateStatus s SessStatus.logged_out, [LogoutOp.clearCreds])

/-- The `logout` handler of server.js (part_000 lines 915-929): same as
app.js but with no credential clearing at all. -/
def logoutServer (s : SupState) (_protoFails : Bool) : SupState × List LogoutOp :=
  match s.registry with
  | some _ =>
    (updateStatus { s with registry := none } SessStatus.logged_out, [LogoutOp.protoLogout])
  | none =>
    (updateStatus s SessStatus.logged_out, [])

/-! ## Fine-grained interleaving model of `startBaileysSession`

`startBaileysSession` (part_000 lines 171-188) checks the registry
synchronously (line 172) but only writes `SESSIONS[sessionId]` at line
188, after `await sessionStore.upsert` (174), `await useMySQLAuthState`
(177) and `await fetchLatestBaileysVersion` (179).  A start task therefore
has one suspension window between the check and the registration, which
this model makes explicit. -/

/-- State touched by concurrent starts of one session. -/
structure StartSt where
  registry : Option Nat
  nextSock : Nat
  created : Nat
deriving DecidableEq

/-- Line 172: the synchronous registry consultation. -/
def startCheck (s : StartSt) : Option Nat := s.registry

/-- Lines 181-188: create the socket and write the registry entry
(runs only after the awaited steps resolve). -/
def startFinish (s : StartSt) : StartSt × Nat :=
  ({ registry := some s.nextSock, nextSock := s.nextSock + 1, created := s.created + 1 },
    s.nextSock)

/-- A start that runs to completion with no interleaving. -/
def runStart (s : StartSt) : StartSt × Nat :=
  match startCheck s with
  | some sock => (s, sock)
  | none => startFinish s

/-- Progress of one start task: not yet run, suspended in the awaited
section, or finished with a socket handle. -/
inductive TaskState
  | ready
  | suspended
  | finished (sock : Nat)
deriving DecidableEq

/-- One cooperative step of a start task. -/
def stepTask (s : StartSt) (t : TaskState) : StartSt × TaskState :=
  match t with
  | TaskState.ready =>
    match startCheck s with
    | some sock => (s, TaskState.finished sock)
    | none => (s, TaskState.suspended)
  | TaskState.suspended =>
    let (s2, sock) := startFinish s
    (s2, TaskState.finished sock)
  | TaskState.finished sock => (s, TaskState.finished sock)

/-- Run two start tasks under a schedule: `false` steps the first task,
`true` steps the second. -/
def runSched : List Bool → StartSt × TaskState × TaskState → StartSt × TaskState × TaskState
  | [], st => st
  | b :: rest, (s, ta, tb) =>
    if b then
      let (s2, tb2) := stepTask s tb
      runSched rest (s2, ta, tb2)
    else
      let (s2, ta2) := stepTask s ta
      runSched rest (s2, ta2, tb)

/-! ## Broadcast handlers -/

/-- Events emitted by the broadcast handlers.  `complete` carries the
summary payload; its optional `success` field models the presence or
absence of the success-count property on the emitted JS object. -/
inductive BEvent
  | progress (target : List Char) (sent : Bool) (idx total : Nat)
  | complete (total : Nat) (success : Option Nat)
  | errorEvent (m : List Char)
deriving DecidableEq

/-- Loop body of the app.js `broadcast` handler (part_000 lines 382-393):
`formatJid` is called OUTSIDE the per-recipient try, so a throwing
recipient aborts the whole loop via the outer catch; a send failure
inside the try only yields a per-recipient error status.  The completion
event carries `\x7b id, total \x7d` — no success count. -/
def broadcastGoApp (ok : List Char → Bool) (total : Nat) (i : Nat) :
    List (List Char) → List BEvent
  | [] => [BEvent.complete total none]
  | r :: rest =>
    match formatJid r with
    | Except.error e => [BEvent.errorEvent e]
    | Except.ok jid =>
      BEvent.progress jid (ok jid) (i + 1) total :: broadcastGoApp ok total (i + 1) rest

/-- The app.js `broadcast` handler (part_000 lines 378-397). -/
def broadcastApp (reg : Option Nat) (ok : List Char → Bool) (numbers : List (List Char)) :
    List BEvent :=
  match reg with
  | none => [BEvent.errorEvent sNotActive]
  | some _ => broadcastGoApp ok numbers.length 0 numbers

/-- Loop body of the server.js `broadcast` handler (part_000 lines
897-908), which additionally counts successes and puts the count in the
completion payload. -/
def broadcastGoServer (ok : List Char → Bool) (total : Nat) (i succ : Nat) :
    List (List Char) → List BEvent
  | [] => [BEvent.complete total (some succ)]
  | r :: rest =>
    match formatJid r with
    | Except.error e => [BEvent.errorEvent e]
    | Except.ok jid =>
      if ok jid then
        BEvent.progress jid true (i + 1) total :: broadcastGoServer ok total (i + 1) (succ + 1) rest
      else
        BEvent.progress jid false (i + 1) total :: broadcastGoServer ok total (i + 1) succ rest

/-- The server.js `broadcast` handler (part_000 lines 890-913). -/
def broadcastServer (reg : Option Nat) (ok : List Char → Bool) (numbers : List (List Char)) :
    List BEvent :=
  match reg with
  | none => [BEvent.errorEvent sNotActive]
  | some _ => broadcastGoServer ok numbers.length 0 0 numbers

/-- Declarative description of the per-recipient progress stream: one
event per recipient, in list order, carrying that recipient's outcome. -/
def progressEvents (ok : List Char → Bool) (total : Nat) (i : Nat) :
    List (List Char) → List BEvent
  | [] => []
  | r :: rest =>
    BEvent.progress (jidFn r) (ok (jidFn r)) (i + 1) total :: progressEvents ok total (i + 1) rest

/-! ## Message history (`messages` table) -/

/-- A `messages` row (the columns the history claims depend on). -/
structure MsgRow where
  id : Nat
  session_id : String
deriving DecidableEq

/-- The `messages` table: rows in insertion order plus the AUTO_INCREMENT
counter. -/
structure MsgDB where
  rows : List MsgRow
  nextId : Nat
deriving DecidableEq

/-- `messageStore.insert` (part_000 lines 112-118): append with the next
auto-increment id. -/
def insertRow (db : MsgDB) (sid : String) : MsgDB :=
  { rows := db.rows ++ [⟨db.nextId, sid⟩], nextId := db.nextId + 1 }

/-- Well-formedness delivered by AUTO_INCREMENT: ids strictly increase in
insertion order and stay below the counter. -/
def wfDB (db : MsgDB) : Prop :=
  db.rows.Pairwise (fun a b => a.id < b.id) ∧ ∀ r ∈ db.rows, r.id < db.nextId

/-- `messageStore.history` (part_000 lines 119-125), serving app.js
`GET /api/messages` (lines 555-558): `SELECT * FROM messages WHERE
session_id=? ORDER BY id DESC LIMIT ?`.  On a table in insertion order
with increasing ids, `ORDER BY id DESC` is the reverse of insertion
order. -/
def historyApp (db : MsgDB) (sid : String) (limit : Nat) : List MsgRow :=
  ((db.rows.filter (fun r => r.session_id == sid)).reverse).take limit

/-- The server.js `GET /api/messages` endpoint (part_000 lines 1006-1011)
calls `messageStore.list(500)` — `SELECT * FROM messages ORDER BY
created_at DESC LIMIT 500` — ignoring the request's `sessionId` and
`limit` query parameters entirely (they are accepted here only to show
they are unused). -/
def apiMessagesServer (db : MsgDB) (_sessionId : Option String) (_limit : Option Nat) :
    List MsgRow :=
  (db.rows.reverse).take 500

/-! ## Command Gateway: REST send and defaulting -/

/-- REST responses of `POST /api/send` (server.js, part_000 lines
968-979). -/
inductive RestResp
  | okResp
  | badRequest (m : List Char)
  | notFound (m : List Char)
  | errResp (m : List Char)
deriving DecidableEq

/-- JS falsiness of an optional string (`undefined`/`null`/`''`). -/
def jsFalsyStr : Option (List Char) → Bool
  | none => true
  | some l => l.isEmpty

/-- `POST /api/send` (part_000 lines 968-979): destructures
`\x7b sessionId='main', to, message \x7d`, validates `to` and `message`
BEFORE touching the registry, then looks up the session, formats the jid,
sends and inserts. -/
def apiSend (reg : String → Option Nat) (sessionId : Option String)
    (toNum msg : Option (List Char)) (protoOk : Bool) : RestResp × List GOp :=
  let sid := sessionId.getD ("main")
  if jsFalsyStr toNum || jsFalsyStr msg then
    (RestResp.badRequest ("to and message required".toList), [])
  else
    match reg sid with
    | none => (RestResp.notFound sNotActive, [])
    | some _ =>
      match formatJid (toNum.getD []) with
      | Except.error e => (RestResp.errResp e, [])
      | Except.ok jid =>
        if protoOk then (RestResp.okResp, [GOp.protoSend jid msg, GOp.dbInsert jid msg])
        else (RestResp.errResp ("send error".toList), [GOp.protoSend jid msg])

/-- The effective session id used by every command handler: app.js uses
the destructuring default `\x7b sessionId='main' \x7d` and server.js uses
`if (!sessionId) sessionId = 'main'`. -/
def effSessionId (sessionId : Option String) : String := sessionId.getD ("main")

/-! ## Inbound `messages.upsert` handlers -/

/-- Content of a protocol message (`msg.message`), with the three text
sources the handler inspects and the media flags. -/
structure MsgContent where
  conversation : Option (List Char)
  extendedText : Option (List Char)
  imageCaption : Option (List Char)
  isImage : Bool
  isDocument : Bool
deriving DecidableEq

/-- An element of `m.messages` in a `messages.upsert` event. -/
structure WAMessage where
  message : Option MsgContent
  remoteJid : List Char
  fromMe : Bool
deriving DecidableEq

/-- The status broadcast channel filtered at part_000 line 250 / 822. -/
def statusBroadcastJid : List Char := "status@broadcast".toList

/-- JS truthiness of an optional string field (empty string is falsy). -/
def jsTruthyText (o : Option (List Char)) : Bool :=
  match o with
  | some (_ :: _) => true
  | _ => false

/-- Text extraction (part_000 lines 253-256): `conversation`, else
`extendedTextMessage.text`, else `imageMessage.caption`, else `''`. -/
def extractText (m : MsgContent) : List Char :=
  if jsTruthyText m.conversation then m.conversation.getD []
  else if jsTruthyText m.extendedText then m.extendedText.getD []
  else if jsTruthyText m.imageCaption then m.imageCaption.getD []
  else []

/-- The stored row for an inbound message (part_000 lines 259-266). -/
structure StoredMsg where
  outbound : Bool
  from_who : List Char
  text : List Char
  media_type : Option (List Char)
deriving DecidableEq

/-- Persistence and fan-out operations of the upsert handlers. -/
inductive UpsertOp
  | insertMsg (r : StoredMsg)
  | emitMessage (from_who text : List Char)
deriving DecidableEq

/-- The filter at part_000 line 250 / 822: skip messages with no
`msg.message` and messages from `status@broadcast`. -/
def keepMsg (m : WAMessage) : Bool :=
  m.message.isSome && !(m.remoteJid == statusBroadcastJid)

/-- Processing of one kept message (part_000 lines 252-269): extract the
text, insert a row, emit a `message` event. -/
def processMsg (m : WAMessage) : List UpsertOp :=
  match m.message with
  | none => []
  | some content =>
    let text := extractText content
    [UpsertOp.insertMsg
        ⟨m.fromMe, m.remoteJid, text,
          if content.isImage then some ("image".toList)
          else if content.isDocument then some ("document".toList)
          else none⟩,
      UpsertOp.emitMessage m.remoteJid text]

/-- The app.js `messages.upsert` handler (part_000 lines 247-271): a
`for` loop over the whole batch with `continue` on filtered messages. -/
def upsertHandlerApp : List WAMessage → List UpsertOp
  | [] => []
  | m :: rest =>
    if keepMsg m then processMsg m ++ upsertHandlerApp rest
    else upsertHandlerApp rest

/-- Processing of the batch-head message in server.js (part_000 lines
824-833): extract the text, insert a row whose direction is hard-coded
`'in'` at line 830 — even for a `fromMe` message — and which carries no
media-type value, then emit a `message` event. -/
def processMsgServer (m : WAMessage) : List UpsertOp :=
  match m.message with
  | none => []
  | some content =>
    let text := extractText content
    [UpsertOp.insertMsg ⟨false, m.remoteJid, text, none⟩,
      UpsertOp.emitMessage m.remoteJid text]

/-- The server.js `messages.upsert` handler (part_000 lines 818-834): it
returns on an empty batch and otherwise inspects ONLY `messages[0]`,
persisting it through the hard-coded `direction: 'in'` insert at line
830. -/
def upsertHandlerServer (batch : List WAMessage) : List UpsertOp :=
  match batch with
  | [] => []
  | m :: _ => if keepMsg m then processMsgServer m else []

/-! ## Concrete fixtures used by witnesses and counterexamples -/

/-- Broadcast example: recipient phone list `[A, B, C]`. -/
def numsABC : List (List Char) := [("111").toList, ("222").toList, ("333").toList]

/-- Send-outcome oracle that fails exactly for recipient B's jid. -/
def okExceptB : List Char → Bool :=
  fun j => if j = ("222@s.whatsapp.net").toList then false else true

/-- A small `messages` table holding rows of two sessions. -/
def dbFixture : MsgDB := ⟨[⟨0, "s1"⟩, ⟨1, "s2"⟩, ⟨2, "s1"⟩], 3⟩

/-- An ordinary inbound text message from sender A. -/
def inboundA : WAMessage :=
  ⟨some ⟨some (("hi").toList), none, none, false, false⟩, ("111@s.whatsapp.net").toList, false⟩

/-- An ordinary inbound text message from sender B. -/
def inboundB : WAMessage :=
  ⟨some ⟨some (("hello").toList), none, none, false, false⟩, ("222@s.whatsapp.net").toList, false⟩

/-! ## Lemmas about `jsTrim` and `formatJid` -/

theorem head?_dropWhile_false {α : Type} {p : α → Bool} {l : List α} {x : α}
    (h : (l.dropWhile p).head? = some x) : p x = false := by
  have hg := List.head?_dropWhile_not p l
  rw [h] at hg
  exact hg

theorem dropWhile_eq_self_of_head {α : Type} {p : α → Bool} {l : List α}
    (h : ∀ x, l.head? = some x → p x = false) : l.dropWhile p = l := by
  cases l with
  | nil => rfl
  | cons a t => simp [List.dropWhile_cons, h a rfl]

theorem getLast?_of_suffix {α : Type} {l₁ l₂ : List α} (h : l₁ <:+ l₂) (hne : l₁ ≠ []) :
    l₂.getLast? = l₁.getLast? := by
  obtain ⟨t, rfl⟩ := h
  exact List.getLast?_append_of_ne_nil t hne

theorem jsTrim_head_not_ws {l : List Char} {c : Char}
    (h : (jsTrim l).head? = some c) : wsChar c = false := by
  unfold jsTrim dropTrailingWS at h
  rw [List.head?_reverse] at h
  have hsuf : (((l.dropWhile wsChar).reverse).dropWhile wsChar) <:+ (l.dropWhile wsChar).reverse :=
    List.dropWhile_suffix _
  have hne : (((l.dropWhile wsChar).reverse).dropWhile wsChar) ≠ [] := by
    intro he
    rw [he] at h
    simp at h
  have h2 : ((l.dropWhile wsChar).reverse).getLast? = some c := by
    rw [getLast?_of_suffix hsuf hne]
    exact h
  rw [List.getLast?_reverse] at h2
  exact head?_dropWhile_false h2

theorem jsTrim_getLast_not_ws {l : List Char} {c : Char}
    (h : (jsTrim l).getLast? = some c) : wsChar c = false := by
  unfold jsTrim dropTrailingWS at h
  rw [List.getLast?_reverse] at h
  exact head?_dropWhile_false h

theorem jsTrim_of_clean {l : List Char}
    (h1 : ∀ c, l.head? = some c → wsChar c = false)
    (h2 : ∀ c, l.getLast? = some c → wsChar c = false) : jsTrim l = l := by
  unfold jsTrim dropTrailingWS
  rw [dropWhile_eq_self_of_head h1]
  rw [dropWhile_eq_self_of_head (fun c hc => h2 c (by rwa [List.head?_reverse] at hc))]
  exact List.reverse_reverse l

theorem jsTrim_idem (l : List Char) : jsTrim (jsTrim l) = jsTrim l :=
  jsTrim_of_clean (fun _ hc => jsTrim_head_not_ws hc) (fun _ hc => jsTrim_getLast_not_ws hc)

theorem jsEndsWith_append (a suf : List Char) : jsEndsWith (a ++ suf) suf = true := by
  simp [jsEndsWith]

theorem ne_nil_of_jsEndsWith {s suf : List Char} (h : jsEndsWith s suf = true)
    (hsuf : suf ≠ []) : s ≠ [] := by
  intro hs
  subst hs
  unfold jsEndsWith at h
  rw [List.isSuffixOf_iff_suffix] at h
  exact hsuf (List.suffix_nil.mp h)

theorem isDigit_not_ws (c : Char) (h : c.isDigit = true) : wsChar c = false := by
  by_contra hw
  rw [Bool.not_eq_false] at hw
  have hc : ((c = ' ' ∨ c = '\t') ∨ c = '\r') ∨ c = '\n' := by
    simpa [wsChar, Char.isWhitespace] using hw
  rcases hc with ((rfl | rfl) | rfl) | rfl <;> exact absurd h (by decide)

theorem digitsSuffix_clean (d : List Char) (hd : ∀ c ∈ d, c.isDigit = true) :
    jsTrim (d ++ waSuffix) = d ++ waSuffix := by
  apply jsTrim_of_clean
  · intro c hc
    cases d with
    | nil =>
      have hv : '@' = c := by simpa [waSuffix] using hc
      rw [← hv]
      decide
    | cons a t =>
      simp only [List.cons_append, List.head?_cons, Option.some.injEq] at hc
      rw [← hc]
      exact isDigit_not_ws a (hd a (List.mem_cons_self a t))
  · intro c hc
    rw [List.getLast?_append_of_ne_nil d (by decide : waSuffix ≠ [])] at hc
    have hv : 't' = c := by simpa [waSuffix] using hc
    rw [← hv]
    decide

theorem formatJid_idem {l r : List Char} (h : formatJid l = Except.ok r) :
    formatJid r = Except.ok r := by
  unfold formatJid at h
  by_cases hl : l = []
  · simp [hl] at h
  · rw [if_neg hl] at h
    by_cases hsuf : (jsEndsWith (jsTrim l) waSuffix || jsEndsWith (jsTrim l) groupSuffix) = true
    · rw [if_pos hsuf] at h
      have hr : jsTrim l = r := by injection h
      subst hr
      have hne : jsTrim l ≠ [] := by
        rcases Bool.or_eq_true_iff.mp hsuf with h1 | h1
        · exact ne_nil_of_jsEndsWith h1 (by decide)
        · exact ne_nil_of_jsEndsWith h1 (by decide)
      unfold formatJid
      rw [if_neg hne]
      rw [if_pos (by rw [jsTrim_idem]; exact hsuf)]
      rw [jsTrim_idem]
    · rw [if_neg hsuf] at h
      have hr : (jsTrim l).filter Char.isDigit ++ waSuffix = r := by injection h
      subst hr
      have hne : (jsTrim l).filter Char.isDigit ++ waSuffix ≠ [] := by
        intro hcon
        have : waSuffix = [] := (List.append_eq_nil.mp hcon).2
        exact absurd this (by decide)
      have hclean : jsTrim ((jsTrim l).filter Char.isDigit ++ waSuffix) =
          (jsTrim l).filter Char.isDigit ++ waSuffix :=
        digitsSuffix_clean _ (fun c hc => List.of_mem_filter hc)
      unfold formatJid
      rw [if_neg hne]
      rw [hclean]
      rw [if_pos (by rw [jsEndsWith_append]; rfl)]

theorem formatJid_of_canonical {l : List Char} (hne : l ≠ []) (ht : jsTrim l = l)
    (hs : jsEndsWith l waSuffix = true) : formatJid l = Except.ok l := by
  unfold formatJid
  rw [if_neg hne, ht]
  rw [if_pos (by rw [hs]; rfl)]

/-! ## Claim theorems -/

/-- C9 counterexample: the input `" 628@s.whatsapp.net"` ends in the
canonical suffix, yet `formatJid` does not return it unchanged — it
returns the trimmed string, because the source trims before the
`endsWith` check.  This refutes the claim's universal "every input string
ending in the canonical suffix is returned unchanged". -/
theorem c9_counterexample :
    jsEndsWith ((" 628@s.whatsapp.net").toList) waSuffix = true ∧
    formatJid ((" 628@s.whatsapp.net").toList) = Except.ok (("628@s.whatsapp.net").toList) ∧
    ("628@s.whatsapp.net").toList ≠ (" 628@s.whatsapp.net").toList := by
  refine ⟨by decide, by rfl, by decide⟩

/-- C9 (amended): an already-canonical address with no surrounding
whitespace is returned unchanged; the digits-with-separators phone string
`"0812-345-6789"` is stripped to digits and suffixed; and the normalizer
is idempotent — whenever `formatJid l` returns `r`, `formatJid r` returns
`r` again. -/
theorem c9_amended (l r c : List Char) (hlr : formatJid l = Except.ok r)
    (hc : c ≠ []) (hct : jsTrim c = c) (hcs : jsEndsWith c waSuffix = true) :
    formatJid c = Except.ok c ∧
    formatJid r = Except.ok r ∧
    formatJid (("0812-345-6789").toList) =
      Except.ok (("08123456789@s.whatsapp.net").toList) :=
  ⟨formatJid_of_canonical hc hct hcs, formatJid_idem hlr, by rfl⟩

/-- Witness for `c9_amended` at concrete inputs. -/
theorem c9_amended_witness :
    formatJid (("628@s.whatsapp.net").toList) = Except.ok (("628@s.whatsapp.net").toList) ∧
    formatJid (("08123456789@s.whatsapp.net").toList) =
      Except.ok (("08123456789@s.whatsapp.net").toList) ∧
    formatJid (("0812-345-6789").toList) =
      Except.ok (("08123456789@s.whatsapp.net").toList) :=
  c9_amended (("0812-345-6789").toList) (("08123456789@s.whatsapp.net").toList)
    (("628@s.whatsapp.net").toList) (by rfl) (by decide) (by decide) (by decide)

/-- C1 counterexample: two `start` tasks for the same session, both of
which pass the line-172 registry check before either reaches the line-188
registration (schedule: A check, B check, A finish, B finish).  Both
proceed, two sockets are created (`created = 2`), the tasks finish with
different handles, and the second registration overwrites the first — so
the second mid-start `start` does NOT short-circuit and more than one
live connection exists. -/
theorem c1_counterexample :
    runSched [false, true, false, true]
        ((⟨none, 0, 0⟩ : StartSt), TaskState.ready, TaskState.ready) =
      ((⟨some 1, 2, 2⟩ : StartSt), TaskState.finished 0, TaskState.finished 1) ∧
    TaskState.finished 0 ≠ TaskState.finished 1 := by
  refine ⟨by rfl, by decide⟩

/-- C1 (amended): a `start` issued when a live Connection is already
registered is a no-op returning the existing handle; and a second `start`
issued after a first has completed returns the first's handle without
creating another connection.  (The short-circuit does NOT hold for a
second `start` issued during the first's awaited section, because the
registry entry is only written after the suspension points — see the
counterexample.) -/
theorem c1_amended (s s0 : StartSt) (k : Nat) (h : s.registry = some k)
    (h0 : s0.registry = none) :
    runStart s = (s, k) ∧
    runStart (runStart s0).1 = ((runStart s0).1, (runStart s0).2) ∧
    (runStart s0).1.created = s0.created + 1 := by
  refine ⟨?_, ?_, ?_⟩
  · unfold runStart startCheck
    rw [h]
  · simp [runStart, startCheck, startFinish, h0]
  · simp [runStart, startCheck, startFinish, h0]

/-- Witness for `c1_amended` at concrete states. -/
theorem c1_amended_witness :
    runStart ⟨some 5, 6, 1⟩ = ((⟨some 5, 6, 1⟩ : StartSt), 5) ∧
    runStart (runStart ⟨none, 0, 0⟩).1 = ((runStart ⟨none, 0, 0⟩).1, (runStart ⟨none, 0, 0⟩).2) ∧
    (runStart (⟨none, 0, 0⟩ : StartSt)).1.created = 0 + 1 :=
  c1_amended ⟨some 5, 6, 1⟩ ⟨none, 0, 0⟩ 5 rfl rfl

/-- C2: a `send-message` command on a session with no live registry entry
replies with the `'session not active'` error, performs no protocol or
store operation, and leaves the state — in particular the persisted
message log — unchanged. -/
theorem c2_send_not_active (s : SupState) (toNum msg : Option (List Char)) (protoOk : Bool)
    (h : s.registry = none) :
    sendMessageHandler s toNum msg protoOk = (s, Reply.errorReply sNotActive, []) ∧
    (sendMessageHandler s toNum msg protoOk).1.msgs = s.msgs := by
  constructor
  · unfold sendMessageHandler
    rw [h]
  · unfold sendMessageHandler
    rw [h]

/-- Witness for `c2_send_not_active` at a concrete state. -/
theorem c2_send_not_active_witness :
    sendMessageHandler ⟨none, some SessStatus.connected, [], [], 0⟩
        (some (("628").toList)) (some (("hi").toList)) true =
      ((⟨none, some SessStatus.connected, [], [], 0⟩ : SupState),
        Reply.errorReply sNotActive, []) ∧
    (sendMessageHandler ⟨none, some SessStatus.connected, [], [], 0⟩
        (some (("628").toList)) (some (("hi").toList)) true).1.msgs = [] :=
  c2_send_not_active ⟨none, some SessStatus.connected, [], [], 0⟩
    (some (("628").toList)) (some (("hi").toList)) true rfl

/-- C5: on a close with the logged-out code the handler removes the
in-memory registry entry, updates (but retains) the persisted Session
row to `logged_out`, schedules no reconnection, writes no message, and a
subsequent send fails with `'session not active'`. -/
theorem c5_logged_out_close (s : SupState) :
    (closeHandler loggedOutCode s).1.registry = none ∧
    (closeHandler loggedOutCode s).1.record = s.record.map (fun _ => SessStatus.logged_out) ∧
    (closeHandler loggedOutCode s).1.record.isSome = s.record.isSome ∧
    (closeHandler loggedOutCode s).1.timers = s.timers ∧
    (closeHandler loggedOutCode s).1.msgs = s.msgs ∧
    ∀ toNum msg protoOk,
      sendMessageHandler (closeHandler loggedOutCode s).1 toNum msg protoOk =
        ((closeHandler loggedOutCode s).1, Reply.errorReply sNotActive, []) := by
  cases hrec : s.record <;>
    simp [closeHandler, updateStatus, sendMessageHandler, hrec]

/-- C4 (code bug): after a recoverable (non-logout) disconnect the row is
marked `disconnected` and exactly one 3000 ms reconnect task is
scheduled — but the stale registry entry is never deleted, so when the
scheduled `startBaileysSession` fires it short-circuits at the line-172
guard, returns the dead socket, creates no new connection, and the
session never transitions back to `loading`, contradicting the source's
own log line "will attempt reconnect in 3s" and the spec's automatic
reconnection. -/
theorem c4_stale_registry_blocks_reconnect :
    (closeHandler 408 ⟨some 7, some SessStatus.connected, [], [], 8⟩).1 =
      (⟨some 7, some SessStatus.disconnected, [], [reconnectDelayMs], 8⟩ : SupState) ∧
    startBaileys ⟨some 7, some SessStatus.disconnected, [], [reconnectDelayMs], 8⟩ =
      ((⟨some 7, some SessStatus.disconnected, [], [reconnectDelayMs], 8⟩ : SupState), 7) ∧
    (⟨some 7, some SessStatus.disconnected, [], [reconnectDelayMs], 8⟩ : SupState).record ≠
      some SessStatus.loading := by
  refine ⟨by decide, by decide, by decide⟩

/-- C6 counterexample: an explicit logout with no purge request (there is
no `purgeCredentials` parameter in the source at all) still performs the
credential-store `clearSession` call, refuting "purges only when
purging is requested, default false". -/
theorem c6_counterexample :
    (logoutApp ⟨none, some SessStatus.connected, [], [], 0⟩ false false).2 =
      [LogoutOp.clearCreds] ∧
    LogoutOp.clearCreds ∈
      (logoutApp ⟨none, some SessStatus.connected, [], [], 0⟩ false false).2 := by
  refine ⟨by decide, by decide⟩

/-- C6 (amended): logout attempts a best-effort protocol logout exactly
when a live connection exists and its failure is ignored (the outcome is
independent of the failure flags), removes the registry entry, marks the
persisted row `logged_out` from any state (also with no live
connection); the app.js variant always attempts to clear the
credential-store entry — unconditionally, there is no purge parameter —
while the server.js variant never clears it. -/
theorem c6_amended (s : SupState) (pf cf pf2 : Bool) :
    logoutApp s pf cf = logoutApp s false false ∧
    (logoutApp s pf cf).1.registry = none ∧
    (logoutApp s pf cf).1.record = s.record.map (fun _ => SessStatus.logged_out) ∧
    LogoutOp.clearCreds ∈ (logoutApp s pf cf).2 ∧
    (LogoutOp.protoLogout ∈ (logoutApp s pf cf).2 ↔ s.registry.isSome = true) ∧
    logoutServer s pf2 = logoutServer s false ∧
    (logoutServer s pf2).1.registry = none ∧
    (logoutServer s pf2).1.record = s.record.map (fun _ => SessStatus.logged_out) ∧
    LogoutOp.clearCreds ∉ (logoutServer s pf2).2 := by
  cases hreg : s.registry <;>
    simp [logoutApp, logoutServer, updateStatus, hreg]

/-! ### Broadcast helper lemmas -/

theorem jidFn_spec {r j : List Char} (h : formatJid r = Except.ok j) : jidFn r = j := by
  unfold jidFn
  rw [h]

theorem formatJid_isOk (r : List Char) (h : r ≠ []) : ∃ j, formatJid r = Except.ok j := by
  unfold formatJid
  rw [if_neg h]
  by_cases hs : (jsEndsWith (jsTrim r) waSuffix || jsEndsWith (jsTrim r) groupSuffix) = true
  · rw [if_pos hs]
    exact ⟨_, rfl⟩
  · rw [if_neg hs]
    exact ⟨_, rfl⟩

theorem formatJid_eq_jidFn {r : List Char} (h : r ≠ []) :
    formatJid r = Except.ok (jidFn r) := by
  obtain ⟨j, hj⟩ := formatJid_isOk r h
  rw [hj, jidFn_spec hj]

theorem broadcastGoApp_eq (ok : List Char → Bool) (total : Nat) :
    ∀ (numbers : List (List Char)), (∀ r ∈ numbers, r ≠ []) → ∀ i,
      broadcastGoApp ok total i numbers =
        progressEvents ok total i numbers ++ [BEvent.complete total none] := by
  intro numbers
  induction numbers with
  | nil => intro _ i; rfl
  | cons r rest ih =>
    intro h i
    have hr : r ≠ [] := h r (List.mem_cons_self r rest)
    have hrest : ∀ x ∈ rest, x ≠ [] := fun x hx => h x (List.mem_cons_of_mem r hx)
    simp only [broadcastGoApp, formatJid_eq_jidFn hr, progressEvents]
    rw [ih hrest (i + 1)]
    rfl

theorem broadcastGoServer_eq (ok : List Char → Bool) (total : Nat) :
    ∀ (numbers : List (List Char)), (∀ r ∈ numbers, r ≠ []) → ∀ i succ,
      broadcastGoServer ok total i succ numbers =
        progressEvents ok total i numbers ++
          [BEvent.complete total (some (succ + numbers.countP (fun r => ok (jidFn r))))] := by
  intro numbers
  induction numbers with
  | nil => intro _ i succ; simp [broadcastGoServer, progressEvents]
  | cons r rest ih =>
    intro h i succ
    have hr : r ≠ [] := h r (List.mem_cons_self r rest)
    have hrest : ∀ x ∈ rest, x ≠ [] := fun x hx => h x (List.mem_cons_of_mem r hx)
    simp only [broadcastGoServer, formatJid_eq_jidFn hr, progressEvents, List.countP_cons]
    by_cases hok : ok (jidFn r)
    · simp only [hok, if_true]
      rw [ih hrest (i + 1) (succ + 1)]
      have harith : succ + 1 + List.countP (fun x => ok (jidFn x)) rest =
          succ + (List.countP (fun x => ok (jidFn x)) rest + 1) := by omega
      rw [harith]
      rfl
    · simp only [Bool.not_eq_true] at hok
      simp only [hok, if_false]
      rw [ih hrest (i + 1) succ]
      simp

/-- C3 counterexample: in the app.js variant, broadcasting to `[A,B,C]`
with B's send failing emits the three progress events and then a
completion event carrying only the total — `\x7b id, total \x7d` with no
success-count field — so no summary event equal to
`\x7b total:3, successCount:2 \x7d` is ever emitted. -/
theorem c3_counterexample :
    (broadcastApp (some 0) okExceptB numsABC).getLast? = some (BEvent.complete 3 none) ∧
    BEvent.complete 3 (some 2) ∉ broadcastApp (some 0) okExceptB numsABC ∧
    (broadcastApp (some 0) okExceptB numsABC).length = 4 := by
  refine ⟨by decide, by decide, by decide⟩

/-- C3 (amended): for a live session and recipients that do not make the
address normalizer throw, both variants send sequentially in list order,
emit exactly one progress event per recipient in order with its outcome,
continue past per-recipient send failures, and emit a single completion
event; the server.js completion carries the total and the success count,
while the app.js completion carries only the total (its payload has no
success-count field). -/
theorem c3_amended (sock : Nat) (ok : List Char → Bool) (numbers : List (List Char))
    (h : ∀ r ∈ numbers, r ≠ []) :
    broadcastServer (some sock) ok numbers =
      progressEvents ok numbers.length 0 numbers ++
        [BEvent.complete numbers.length (some (numbers.countP (fun r => ok (jidFn r))))] ∧
    broadcastApp (some sock) ok numbers =
      progressEvents ok numbers.length 0 numbers ++
        [BEvent.complete numbers.length none] := by
  constructor
  · show broadcastGoServer ok numbers.length 0 0 numbers = _
    rw [broadcastGoServer_eq ok numbers.length numbers h 0 0]
    simp
  · show broadcastGoApp ok numbers.length 0 numbers = _
    exact broadcastGoApp_eq ok numbers.length numbers h 0

/-- Witness for `c3_amended` on `[A,B,C]` with B failing. -/
theorem c3_amended_witness :
    broadcastServer (some 0) okExceptB numsABC =
      progressEvents okExceptB numsABC.length 0 numsABC ++
        [BEvent.complete numsABC.length
          (some (numsABC.countP (fun r => okExceptB (jidFn r))))] ∧
    broadcastApp (some 0) okExceptB numsABC =
      progressEvents okExceptB numsABC.length 0 numsABC ++
        [BEvent.complete numsABC.length none] :=
  c3_amended 0 okExceptB numsABC (by decide)

/-- C7 counterexample: the server.js `GET /api/messages` endpoint, asked
for session `s1` with limit 1, returns rows of other sessions and more
rows than the limit — it ignores both parameters. -/
theorem c7_counterexample :
    apiMessagesServer ⟨[⟨0, "s1"⟩, ⟨1, "s2"⟩], 2⟩ (some ("s1")) (some 1) =
      [⟨1, "s2"⟩, ⟨0, "s1"⟩] ∧
    (⟨1, "s2"⟩ : MsgRow) ∈ apiMessagesServer ⟨[⟨0, "s1"⟩, ⟨1, "s2"⟩], 2⟩ (some ("s1")) (some 1) ∧
    (⟨1, "s2"⟩ : MsgRow).session_id ≠ ("s1") ∧
    (apiMessagesServer ⟨[⟨0, "s1"⟩, ⟨1, "s2"⟩], 2⟩ (some ("s1")) (some 1)).length ≠ 1 := by
  refine ⟨by decide, by decide, by decide, by decide⟩

/-- C7 (amended): the app.js history query returns only the requested
session's rows, in strictly descending id order (newest first), and
exactly `limit` rows when at least `limit` matching rows exist; the
server.js `GET /api/messages` endpoint instead ignores its `sessionId`
and `limit` parameters entirely (its result is parameter-independent),
returning the newest 500 rows across all sessions. -/
theorem c7_amended (db : MsgDB) (sid : String) (limit : Nat) (h : wfDB db) :
    (∀ r ∈ historyApp db sid limit, r.session_id = sid) ∧
    (historyApp db sid limit).Pairwise (fun a b => b.id < a.id) ∧
    (limit ≤ (db.rows.filter (fun r => r.session_id == sid)).length →
      (historyApp db sid limit).length = limit) ∧
    ∀ sidq limq, apiMessagesServer db sidq limq = apiMessagesServer db none none := by
  refine ⟨?_, ?_, ?_, fun _ _ => rfl⟩
  · intro r hr
    have h1 : r ∈ (db.rows.filter (fun x => x.session_id == sid)).reverse :=
      List.mem_of_mem_take hr
    rw [List.mem_reverse] at h1
    have h2 := (List.mem_filter.mp h1).2
    exact eq_of_beq h2
  · apply List.Pairwise.sublist (List.take_sublist _ _)
    rw [List.pairwise_reverse]
    exact List.Pairwise.sublist (List.filter_sublist _) h.1
  · intro hl
    unfold historyApp
    rw [List.length_take, List.length_reverse]
    omega

/-- Witness for `c7_amended` on a concrete two-session table. -/
theorem c7_amended_witness :
    (∀ r ∈ historyApp dbFixture ("s1") 1, r.session_id = ("s1")) ∧
    (historyApp dbFixture ("s1") 1).Pairwise (fun a b => b.id < a.id) ∧
    (1 ≤ (dbFixture.rows.filter (fun r => r.session_id == ("s1"))).length →
      (historyApp dbFixture ("s1") 1).length = 1) ∧
    ∀ sidq limq, apiMessagesServer dbFixture sidq limq = apiMessagesServer dbFixture none none :=
  c7_amended dbFixture ("s1") 1 (by exact ⟨by decide, by decide⟩)

/-- C8 counterexample: a socket `send-message` command with the required
`message` field missing, against an active session, is not rejected with
a validation error — the handler performs the protocol send (with an
undefined text) and the store insert, and even replies success. -/
theorem c8_counterexample :
    (sendMessageHandler ⟨some 1, some SessStatus.connected, [], [], 2⟩
        (some (("628").toList)) none true).2.2 =
      [GOp.protoSend (("628@s.whatsapp.net").toList) none,
        GOp.dbInsert (("628@s.whatsapp.net").toList) none] ∧
    (sendMessageHandler ⟨some 1, some SessStatus.connected, [], [], 2⟩
        (some (("628").toList)) none true).2.1 =
      Reply.successReply (("Message sent").toList) := by
  refine ⟨by decide, by decide⟩

/-- C8 (amended): the REST `POST /api/send` endpoint validates `to` and
`message` and replies 400 before consulting the registry or performing
any protocol or store operation; an absent `sessionId` is dispatched
against the default identity `'main'` in every handler; but the socket
`send-message` handler performs no field validation — with an active
session and a missing `message` the protocol send is still invoked. -/
theorem c8_amended (reg : String → Option Nat) (sessionId : Option String)
    (toNum msg : Option (List Char)) (protoOk : Bool) (s : SupState)
    (t j : List Char) (protoOk2 : Bool)
    (hval : (jsFalsyStr toNum || jsFalsyStr msg) = true)
    (hreg : s.registry.isSome = true) (hj : formatJid t = Except.ok j) :
    apiSend reg sessionId toNum msg protoOk =
      (RestResp.badRequest (("to and message required").toList), []) ∧
    (∀ to2 msg2 p2, apiSend reg none to2 msg2 p2 = apiSend reg (some ("main")) to2 msg2 p2) ∧
    effSessionId none = ("main") ∧
    GOp.protoSend j none ∈ (sendMessageHandler s (some t) none protoOk2).2.2 := by
  refine ⟨?_, fun _ _ _ => rfl, rfl, ?_⟩
  · simp [apiSend, hval]
  · cases hr : s.registry with
    | none =>
      rw [hr] at hreg
      simp at hreg
    | some k =>
      by_cases hp : protoOk2 <;> simp [sendMessageHandler, hr, hj, hp]

/-- Witness for `c8_amended` at concrete inputs. -/
theorem c8_amended_witness :
    apiSend (fun _ => none) none none (some (("x").toList)) true =
      (RestResp.badRequest (("to and message required").toList), []) ∧
    (∀ to2 msg2 p2, apiSend (fun _ => none) none to2 msg2 p2 =
      apiSend (fun _ => none) (some ("main")) to2 msg2 p2) ∧
    effSessionId none = ("main") ∧
    GOp.protoSend (("628@s.whatsapp.net").toList) none ∈
      (sendMessageHandler ⟨some 1, some SessStatus.connected, [], [], 2⟩
        (some (("628").toList)) none true).2.2 :=
  c8_amended (fun _ => none) none none (some (("x").toList)) true
    ⟨some 1, some SessStatus.connected, [], [], 2⟩ (("628").toList)
    (("628@s.whatsapp.net").toList) true (by decide) (by decide) (by rfl)

/-- C10 counterexample: the server.js `messages.upsert` handler only
processes the first message of a batch: the second message of the batch
passes the keep-filter yet is neither persisted nor broadcast, while the
app.js handler processes it. -/
theorem c10_counterexample :
    keepMsg inboundB = true ∧
    UpsertOp.emitMessage inboundB.remoteJid (("hello").toList) ∈
      upsertHandlerApp [inboundA, inboundB] ∧
    UpsertOp.emitMessage inboundB.remoteJid (("hello").toList) ∉
      upsertHandlerServer [inboundA, inboundB] ∧
    (upsertHandlerServer [inboundA, inboundB]).length = 2 := by
  refine ⟨by decide, by decide, by decide, by decide⟩

/-- C10 (amended): the app.js handler persists and broadcasts exactly the
batch messages that have a body and are not from `status@broadcast`, in
batch order (it equals filter-then-process); the server.js handler
applies the same filter but only to the first message of the batch, so
later batch messages are never persisted or broadcast, and every row it
persists is stored with direction hard-coded to `'in'` (even for an
outbound `fromMe` message) and with no media type. -/
theorem c10_amended (batch : List WAMessage) :
    upsertHandlerApp batch = (batch.filter keepMsg).flatMap processMsg ∧
    upsertHandlerServer batch = ((batch.take 1).filter keepMsg).flatMap processMsgServer ∧
    ∀ r, UpsertOp.insertMsg r ∈ upsertHandlerServer batch →
      r.outbound = false ∧ r.media_type = none := by
  refine ⟨?_, ?_, ?_⟩
  · induction batch with
    | nil => rfl
    | cons m rest ih =>
      by_cases hk : keepMsg m <;>
        simp [upsertHandlerApp, List.filter_cons, hk, ih]
  · cases batch with
    | nil => rfl
    | cons m rest =>
      by_cases hk : keepMsg m <;>
        simp [upsertHandlerServer, List.take, List.filter_cons, hk]
  · intro r hr
    cases batch with
    | nil => simp [upsertHandlerServer] at hr
    | cons m rest =>
      by_cases hk : keepMsg m
      · cases hm : m.message with
        | none => simp [keepMsg, hm] at hk
        | some content =>
          simp [upsertHandlerServer, processMsgServer, hk, hm] at hr
          simp [hr]
      · simp [upsertHandlerServer, hk] at hr

/-- Witness for `c10_amended` on a concrete two-message batch. -/
theorem c10_amended_witness :
    upsertHandlerApp [inboundA, inboundB] =
      ([inboundA, inboundB].filter keepMsg).flatMap processMsg ∧
    upsertHandlerServer [inboundA, inboundB] =
      (([inboundA, inboundB].take 1).filter keepMsg).flatMap processMsgServer ∧
    ∀ r, UpsertOp.insertMsg r ∈ upsertHandlerServer [inboundA, inboundB] →
      r.outbound = false ∧ r.media_type = none :=
  c10_amended [inboundA, inboundB]

end Wajpay
